import Mathlib

/-!
Verification of the distributed-physics coordination core (steadyum).

This file gives a shallow embedding, in Lean, of the coordination
subsystem of the repository: the total order on simulation regions
(steadyum-api-types/src/simulation.rs), the per-tick region election and
sendback hysteresis (steadyum-runner/src/region_assignment.rs), the watch
set and client snapshot computations (steadyum-runner/src/watch.rs and
runner.rs), the client query filter (steadyum-runner/src/storage.rs), and
the Master coordinator state machine (steadyum-partitionner/src/main.rs).
Machine integers (i64, u64, isize, u128) are modelled as Int or Nat; the
values manipulated by the embedded code stay far from the overflow
boundaries.  Floating-point coordinates are modelled as Int (for region
and AABB comparisons, which only use ordering) or Rat (for the domain
subdivision, which divides by two); none of the verified claims depends
on rounding behaviour.
-/

/-- Integer AABB region bounds, mirroring SimulationBounds in
steadyum-api-types/src/simulation.rs (dim3: mins and maxs are three i64
each). -/
structure SimulationBounds where
  mins0 : Int
  mins1 : Int
  mins2 : Int
  maxs0 : Int
  maxs1 : Int
  maxs2 : Int
deriving DecidableEq

namespace SimulationBounds

/-- The comparison from impl PartialOrd for SimulationBounds: lexicographic
on the mins only (the maxs are ignored by the order). -/
def cmp (a b : SimulationBounds) : Ordering :=
  if a.mins0 < b.mins0 then .lt
  else if b.mins0 < a.mins0 then .gt
  else if a.mins1 < b.mins1 then .lt
  else if b.mins1 < a.mins1 then .gt
  else if a.mins2 < b.mins2 then .lt
  else if b.mins2 < a.mins2 then .gt
  else .eq

theorem cmp_lt_iff (a b : SimulationBounds) :
    cmp a b = .lt ↔
      (a.mins0 < b.mins0 ∨ (a.mins0 = b.mins0 ∧
        (a.mins1 < b.mins1 ∨ (a.mins1 = b.mins1 ∧ a.mins2 < b.mins2)))) := by
  unfold cmp
  split_ifs <;> simp_all <;> omega

theorem cmp_gt_iff (a b : SimulationBounds) :
    cmp a b = .gt ↔
      (b.mins0 < a.mins0 ∨ (b.mins0 = a.mins0 ∧
        (b.mins1 < a.mins1 ∨ (b.mins1 = a.mins1 ∧ b.mins2 < a.mins2)))) := by
  unfold cmp
  split_ifs <;> simp_all <;> omega

theorem cmp_eq_iff (a b : SimulationBounds) :
    cmp a b = .eq ↔
      (a.mins0 = b.mins0 ∧ a.mins1 = b.mins1 ∧ a.mins2 = b.mins2) := by
  unfold cmp
  split_ifs <;> simp_all <;> omega

theorem cmp_refl (a : SimulationBounds) : cmp a a = .eq := by
  rw [cmp_eq_iff]
  exact ⟨rfl, rfl, rfl⟩

theorem cmp_gt_iff_lt (a b : SimulationBounds) :
    cmp a b = .gt ↔ cmp b a = .lt := by
  rw [cmp_gt_iff, cmp_lt_iff]

theorem cmp_trichotomy (a b : SimulationBounds) :
    cmp a b = .lt ∨ cmp a b = .eq ∨ cmp a b = .gt := by
  rw [cmp_lt_iff, cmp_eq_iff, cmp_gt_iff]
  omega

theorem cmp_lt_asymm (a b : SimulationBounds)
    (h1 : cmp a b = .lt) (h2 : cmp b a = .lt) : False := by
  rw [cmp_lt_iff] at h1 h2
  omega

theorem cmp_lt_trans (a b c : SimulationBounds)
    (h1 : cmp a b = .lt) (h2 : cmp b c = .lt) : cmp a c = .lt := by
  rw [cmp_lt_iff] at h1 h2 ⊢
  omega

theorem cmp_not_gt_iff (a b : SimulationBounds) :
    cmp a b ≠ .gt ↔ (cmp a b = .lt ∨ cmp a b = .eq) := by
  rcases cmp_trichotomy a b with h | h | h <;> simp [h]

theorem cmp_le_trans (a b c : SimulationBounds)
    (h1 : cmp a b ≠ .gt) (h2 : cmp b c ≠ .gt) : cmp a c ≠ .gt := by
  rw [cmp_not_gt_iff] at h1 h2 ⊢
  rw [cmp_lt_iff, cmp_eq_iff] at *
  omega

theorem cmp_lt_of_le_of_lt (a b c : SimulationBounds)
    (h1 : cmp a b ≠ .gt) (h2 : cmp b c = .lt) : cmp a c = .lt := by
  rw [cmp_not_gt_iff] at h1
  rw [cmp_lt_iff, cmp_eq_iff] at *
  omega

theorem cmp_lt_of_lt_of_le (a b c : SimulationBounds)
    (h1 : cmp a b = .lt) (h2 : cmp b c ≠ .gt) : cmp a c = .lt := by
  rw [cmp_not_gt_iff] at h2
  rw [cmp_lt_iff, cmp_eq_iff] at *
  omega

/-- SimulationBounds::smallest: all coordinates are i64::MIN. -/
def smallest : SimulationBounds :=
  { mins0 := -(2 ^ 63), mins1 := -(2 ^ 63), mins2 := -(2 ^ 63),
    maxs0 := -(2 ^ 63), maxs1 := -(2 ^ 63), maxs2 := -(2 ^ 63) }

/-- A well-formed grid region: maxs = mins + w on each axis (regions tile
space on a grid of fixed edge length w). -/
def wellFormed (b : SimulationBounds) (w : Int) : Prop :=
  b.maxs0 = b.mins0 + w ∧ b.maxs1 = b.mins1 + w ∧ b.maxs2 = b.mins2 + w

/-- SimulationBounds::grid_extents followed by the shift arithmetic of
SimulationBounds::relative_neighbor (simulation.rs): the neighbor obtained
by shifting by (s0, s1, s2) times the per-axis extent. -/
def relativeNeighbor (b : SimulationBounds) (s0 s1 s2 : Int) : SimulationBounds :=
  { mins0 := b.mins0 + s0 * (b.maxs0 - b.mins0),
    mins1 := b.mins1 + s1 * (b.maxs1 - b.mins1),
    mins2 := b.mins2 + s2 * (b.maxs2 - b.mins2),
    maxs0 := b.maxs0 + s0 * (b.maxs0 - b.mins0),
    maxs1 := b.maxs1 + s1 * (b.maxs1 - b.mins1),
    maxs2 := b.maxs2 + s2 * (b.maxs2 - b.mins2) }

end SimulationBounds

/-- Axis-aligned bounding box, mirroring parry Aabb (coordinates modelled
as Int: the verified properties only compare coordinates). -/
structure Aabb where
  mins0 : Int
  mins1 : Int
  mins2 : Int
  maxs0 : Int
  maxs1 : Int
  maxs2 : Int
deriving DecidableEq

namespace Aabb

/-- Aabb::intersects from parry BoundingVolume: componentwise
mins <= other.maxs and other.mins <= maxs. -/
def intersects (a b : Aabb) : Bool :=
  a.mins0 ≤ b.maxs0 && a.mins1 ≤ b.maxs1 && a.mins2 ≤ b.maxs2 &&
  b.mins0 ≤ a.maxs0 && b.mins1 ≤ a.maxs1 && b.mins2 ≤ a.maxs2

/-- Aabb::contains from parry BoundingVolume: self.mins <= other.mins and
other.maxs <= self.maxs, componentwise. -/
def containsAabb (a b : Aabb) : Bool :=
  a.mins0 ≤ b.mins0 && a.mins1 ≤ b.mins1 && a.mins2 ≤ b.mins2 &&
  b.maxs0 ≤ a.maxs0 && b.maxs1 ≤ a.maxs1 && b.maxs2 ≤ a.maxs2

end Aabb

namespace SimulationBounds

/-- SimulationBounds::DEFAULT_WIDTH = 100. -/
def defaultWidth : Int := 100

/-- SimulationBounds::aabb: the region bounds as an AABB. -/
def toAabb (b : SimulationBounds) : Aabb :=
  { mins0 := b.mins0, mins1 := b.mins1, mins2 := b.mins2,
    maxs0 := b.maxs0, maxs1 := b.maxs1, maxs2 := b.maxs2 }

/-- SimulationBounds::from_point: mins = floor(p / w) * w per axis,
maxs = mins + w. -/
def fromPoint (p0 p1 p2 : Int) (w : Int) : SimulationBounds :=
  { mins0 := (Int.fdiv p0 w) * w, mins1 := (Int.fdiv p1 w) * w,
    mins2 := (Int.fdiv p2 w) * w,
    maxs0 := (Int.fdiv p0 w) * w + w, maxs1 := (Int.fdiv p1 w) * w + w,
    maxs2 := (Int.fdiv p2 w) * w + w }

/-- SimulationBounds::from_aabb: the region of the max corner of the
AABB. -/
def fromAabb (a : Aabb) (w : Int) : SimulationBounds :=
  fromPoint a.maxs0 a.maxs1 a.maxs2 w

end SimulationBounds

open SimulationBounds

/-- The three watched regions of init_watched_neighbors (watch.rs): for
each axis i in [0,1,2], a shift of one along that positive axis via
SimulationBounds::relative_neighbor. -/
def watchedRegions (b : SimulationBounds) : List SimulationBounds :=
  [b.relativeNeighbor 1 0 0, b.relativeNeighbor 0 1 0, b.relativeNeighbor 0 0 1]

/-- Claim C3: for a well-formed region B of edge w > 0, the regions whose
watch sets the Simulator for B reads at the start of a tick are exactly
the three positive-axis neighbors B + w * e_i (B translated by one region
edge along one positive axis), and each of them is strictly greater than
B in the lexicographic-on-mins total order. -/
theorem c3_watched_neighbors (b : SimulationBounds) (w : Int)
    (hw : 0 < w) (hwf : b.wellFormed w) :
    watchedRegions b =
      [{ mins0 := b.mins0 + w, mins1 := b.mins1, mins2 := b.mins2,
         maxs0 := b.maxs0 + w, maxs1 := b.maxs1, maxs2 := b.maxs2 },
       { mins0 := b.mins0, mins1 := b.mins1 + w, mins2 := b.mins2,
         maxs0 := b.maxs0, maxs1 := b.maxs1 + w, maxs2 := b.maxs2 },
       { mins0 := b.mins0, mins1 := b.mins1, mins2 := b.mins2 + w,
         maxs0 := b.maxs0, maxs1 := b.maxs1, maxs2 := b.maxs2 + w }] ∧
    ∀ r ∈ watchedRegions b, SimulationBounds.cmp b r = .lt := by
  obtain ⟨h0, h1, h2⟩ := hwf
  constructor
  · simp only [watchedRegions, SimulationBounds.relativeNeighbor, List.cons.injEq,
      SimulationBounds.mk.injEq, and_true]
    refine ⟨⟨?_, ?_, ?_, ?_, ?_, ?_⟩, ⟨?_, ?_, ?_, ?_, ?_, ?_⟩, ?_, ?_, ?_, ?_, ?_, ?_⟩ <;> omega
  · intro r hr
    simp only [watchedRegions, List.mem_cons, List.not_mem_nil, or_false] at hr
    rcases hr with hr | hr | hr <;> subst hr <;>
      rw [SimulationBounds.cmp_lt_iff] <;>
      simp only [SimulationBounds.relativeNeighbor] <;> omega

/-- Witness for c3_watched_neighbors at the base region of edge 100. -/
theorem c3_watched_neighbors_witness :
    watchedRegions { mins0 := 0, mins1 := 0, mins2 := 0,
                     maxs0 := 100, maxs1 := 100, maxs2 := 100 } =
      [{ mins0 := 100, mins1 := 0, mins2 := 0,
         maxs0 := 200, maxs1 := 100, maxs2 := 100 },
       { mins0 := 0, mins1 := 100, mins2 := 0,
         maxs0 := 100, maxs1 := 200, maxs2 := 100 },
       { mins0 := 0, mins1 := 0, mins2 := 100,
         maxs0 := 100, maxs1 := 100, maxs2 := 200 }] ∧
    ∀ r ∈ watchedRegions { mins0 := 0, mins1 := 0, mins2 := 0,
                           maxs0 := 100, maxs1 := 100, maxs2 := 100 },
      SimulationBounds.cmp { mins0 := 0, mins1 := 0, mins2 := 0,
                             maxs0 := 100, maxs1 := 100, maxs2 := 100 } r = .lt :=
  c3_watched_neighbors _ 100 (by decide) (by constructor <;> constructor <;> decide)

/-- The per-body data consumed by calculate_region_assignments
(region_assignment.rs): the entry of sim_state.watched_objects for this
body (the region watching it, if any), the AABB of its first collider,
and its sendback-delay counter (body.user_data). -/
structure RegionBody where
  watched : Option SimulationBounds
  aabb : Aabb
  userData : Nat
deriving DecidableEq

/-- MIN_SENDBACK_DELAY = 50 (region_assignment.rs). -/
def minSendbackDelay : Nat := 50

/-- The watch-index query of region_assignment.rs: the owning regions of
the entries of the QueryableWatchedObjects whose AABB intersects the
query AABB (the Qbvh is modelled by its contract: it returns exactly the
stored AABBs intersecting the query). -/
def watchHits (objs : List (SimulationBounds × Aabb)) (a : Aabb) :
    List SimulationBounds :=
  (objs.filter (fun o => Aabb.intersects a o.2)).map (fun o => o.1)

/-- Maximum of a list of regions in the total order, as Iterator::max does
it (later elements win ties). -/
def regionListMax (h : SimulationBounds) (t : List SimulationBounds) :
    SimulationBounds :=
  t.foldl (fun acc y => if SimulationBounds.cmp acc y = .gt then acc else y) h

/-- The candidate region of one body inside calculate_region_assignments:
the watching region if the body is a watch entry; else the maximum owning
region of the watch-index hits; else the geometric region of the body,
subject to the sendback-delay hysteresis (a geometric candidate strictly
below the current region is replaced by the current region, and the
counter incremented, while the counter is below MIN_SENDBACK_DELAY).
Returns the candidate together with the body's updated counter. -/
def candidateRegion (simBounds : SimulationBounds)
    (objs : List (SimulationBounds × Aabb)) (b : RegionBody) :
    SimulationBounds × Nat :=
  match b.watched with
  | some w => (w, b.userData)
  | none =>
    match watchHits objs b.aabb with
    | [] =>
      let bodyRegion := SimulationBounds.fromAabb b.aabb defaultWidth
      if SimulationBounds.cmp bodyRegion simBounds = .lt then
        if b.userData < minSendbackDelay then (simBounds, b.userData + 1)
        else (bodyRegion, b.userData)
      else (bodyRegion, b.userData)
    | h :: t => (regionListMax h t, b.userData)

/-- The elected region of a connected component: the maximum candidate
across its bodies, folded from SimulationBounds::smallest exactly as in
the source; an empty component keeps the current region. -/
def componentRegion (simBounds : SimulationBounds)
    (objs : List (SimulationBounds × Aabb)) (bodies : List RegionBody) :
    SimulationBounds :=
  match bodies with
  | [] => simBounds
  | _ =>
    (bodies.map (fun b => (candidateRegion simBounds objs b).1)).foldl
      (fun best c => if SimulationBounds.cmp c best = .gt then c else best)
      SimulationBounds.smallest

/-- The migration test of calculate_region_assignments: a component is
migrated when its elected region is strictly greater or strictly smaller
than the current region. -/
def isMigrated (simBounds : SimulationBounds)
    (objs : List (SimulationBounds × Aabb)) (bodies : List RegionBody) :
    Bool :=
  SimulationBounds.cmp (componentRegion simBounds objs bodies) simBounds = .gt ||
  SimulationBounds.cmp (componentRegion simBounds objs bodies) simBounds = .lt

theorem electionFold_attained (l : List SimulationBounds)
    (init : SimulationBounds) :
    l.foldl (fun best c => if SimulationBounds.cmp c best = .gt then c else best)
        init = init ∨
      l.foldl (fun best c => if SimulationBounds.cmp c best = .gt then c else best)
        init ∈ l := by
  induction l generalizing init with
  | nil => exact Or.inl rfl
  | cons h t ih =>
    simp only [List.foldl_cons, List.mem_cons]
    by_cases hc : SimulationBounds.cmp h init = .gt
    · rw [if_pos hc]
      rcases ih h with h1 | h1
      · exact Or.inr (Or.inl h1)
      · exact Or.inr (Or.inr h1)
    · rw [if_neg hc]
      rcases ih init with h1 | h1
      · exact Or.inl h1
      · exact Or.inr (Or.inr h1)

theorem electionFold_le_init (l : List SimulationBounds)
    (init : SimulationBounds) :
    SimulationBounds.cmp init
      (l.foldl (fun best c => if SimulationBounds.cmp c best = .gt then c else best)
        init) ≠ .gt := by
  induction l generalizing init with
  | nil =>
    simp only [List.foldl_nil]
    rw [SimulationBounds.cmp_refl init]
    decide
  | cons h t ih =>
    simp only [List.foldl_cons]
    by_cases hc : SimulationBounds.cmp h init = .gt
    · rw [if_pos hc]
      refine SimulationBounds.cmp_le_trans init h _ ?_ (ih h)
      rw [SimulationBounds.cmp_gt_iff_lt] at hc
      rw [SimulationBounds.cmp_not_gt_iff]
      exact Or.inl hc
    · rw [if_neg hc]
      exact ih init

theorem electionFold_upper (l : List SimulationBounds)
    (init : SimulationBounds) (c : SimulationBounds) (hc : c ∈ l) :
    SimulationBounds.cmp c
      (l.foldl (fun best c => if SimulationBounds.cmp c best = .gt then c else best)
        init) ≠ .gt := by
  induction l generalizing init with
  | nil => exact absurd hc (List.not_mem_nil c)
  | cons h t ih =>
    simp only [List.foldl_cons]
    rcases List.mem_cons.1 hc with h1 | h1
    · subst h1
      by_cases hcc : SimulationBounds.cmp c init = .gt
      · rw [if_pos hcc]
        exact electionFold_le_init t c
      · rw [if_neg hcc]
        refine SimulationBounds.cmp_le_trans c init _ ?_ (electionFold_le_init t init)
        exact hcc
    · by_cases hcc : SimulationBounds.cmp h init = .gt
      · rw [if_pos hcc]
        exact ih h h1
      · rw [if_neg hcc]
        exact ih init h1

theorem regionListMax_attained (h : SimulationBounds)
    (t : List SimulationBounds) : regionListMax h t ∈ h :: t := by
  unfold regionListMax
  induction t generalizing h with
  | nil => exact List.mem_singleton.2 rfl
  | cons x xs ih =>
    simp only [List.foldl_cons]
    by_cases hc : SimulationBounds.cmp h x = .gt
    · rw [if_pos hc]
      rcases List.mem_cons.1 (ih h) with h1 | h1
      · exact List.mem_cons.2 (Or.inl h1)
      · exact List.mem_cons.2 (Or.inr (List.mem_cons.2 (Or.inr h1)))
    · rw [if_neg hc]
      rcases List.mem_cons.1 (ih x) with h1 | h1
      · exact List.mem_cons.2 (Or.inr (List.mem_cons.2 (Or.inl h1)))
      · exact List.mem_cons.2 (Or.inr (List.mem_cons.2 (Or.inr h1)))

theorem watchHits_mem (objs : List (SimulationBounds × Aabb)) (a : Aabb)
    (r : SimulationBounds) (hr : r ∈ watchHits objs a) :
    ∃ o ∈ objs, o.1 = r := by
  unfold watchHits at hr
  rcases List.mem_map.1 hr with ⟨o, ho, rfl⟩
  exact ⟨o, (List.mem_filter.1 ho).1, rfl⟩

theorem candidate_above_smallest (B : SimulationBounds)
    (objs : List (SimulationBounds × Aabb)) (b : RegionBody)
    (hB : SimulationBounds.cmp SimulationBounds.smallest B = .lt)
    (hwb : ∀ r, b.watched = some r → SimulationBounds.cmp B r = .lt)
    (hobjs : ∀ o ∈ objs, SimulationBounds.cmp B o.1 = .lt)
    (hboundb : SimulationBounds.cmp SimulationBounds.smallest
      (SimulationBounds.fromAabb b.aabb defaultWidth) = .lt) :
    SimulationBounds.cmp SimulationBounds.smallest
      (candidateRegion B objs b).1 = .lt := by
  rcases hwtch : b.watched with _ | w
  · rcases hhits : watchHits objs b.aabb with _ | ⟨h, t⟩
    · simp only [candidateRegion, hwtch, hhits]
      split_ifs with h1 h2
      · exact hB
      · exact hboundb
      · exact hboundb
    · simp only [candidateRegion, hwtch, hhits]
      have hmem : regionListMax h t ∈ watchHits objs b.aabb := by
        rw [hhits]
        exact regionListMax_attained h t
      obtain ⟨o, ho, hor⟩ := watchHits_mem objs b.aabb _ hmem
      refine SimulationBounds.cmp_lt_trans _ B _ hB ?_
      rw [← hor]
      exact hobjs o ho
  · simp only [candidateRegion, hwtch]
    exact SimulationBounds.cmp_lt_trans _ B _ hB (hwb w hwtch)

theorem candidate_below_current (B : SimulationBounds)
    (objs : List (SimulationBounds × Aabb)) (b : RegionBody)
    (hwb : ∀ r, b.watched = some r → SimulationBounds.cmp B r = .lt)
    (hobjs : ∀ o ∈ objs, SimulationBounds.cmp B o.1 = .lt)
    (hlt : SimulationBounds.cmp (candidateRegion B objs b).1 B = .lt) :
    (candidateRegion B objs b).1 =
        SimulationBounds.fromAabb b.aabb defaultWidth ∧
      minSendbackDelay ≤ b.userData := by
  rcases hwtch : b.watched with _ | w
  · rcases hhits : watchHits objs b.aabb with _ | ⟨h, t⟩
    · simp only [candidateRegion, hwtch, hhits] at hlt ⊢
      split_ifs at hlt ⊢ with h1 h2
      · exfalso
        have hBB : SimulationBounds.cmp B B = .lt := hlt
        rw [SimulationBounds.cmp_refl] at hBB
        exact absurd hBB (by decide)
      · exact ⟨rfl, Nat.le_of_not_lt h2⟩
      · exact absurd hlt h1
    · exfalso
      simp only [candidateRegion, hwtch, hhits] at hlt
      have hmem : regionListMax h t ∈ watchHits objs b.aabb := by
        rw [hhits]
        exact regionListMax_attained h t
      obtain ⟨o, ho, hor⟩ := watchHits_mem objs b.aabb _ hmem
      have hgt : SimulationBounds.cmp B (regionListMax h t) = .lt := by
        rw [← hor]
        exact hobjs o ho
      exact SimulationBounds.cmp_lt_asymm _ _ hlt hgt
  · exfalso
    simp only [candidateRegion, hwtch] at hlt
    exact SimulationBounds.cmp_lt_asymm _ _ hlt (hwb w hwtch)

/-- Claim C1: on every tick of a Simulator owning region B (so every
watching region and every watch-index region is strictly greater than B,
and every per-body geometric region is above SimulationBounds::smallest,
as the i64 grid arithmetic guarantees), any connected component that is
migrated (elected region strictly above or strictly below B) has its
elected region either strictly greater than B, or strictly smaller than B
with the body producing that maximal candidate carrying a sendback-delay
counter that already reached MIN_SENDBACK_DELAY = 50; and any body whose
geometric candidate is strictly below B while its counter is below 50 has
its counter incremented and its candidate forced to B for this tick. -/
theorem c1_election_total_order (B : SimulationBounds)
    (objs : List (SimulationBounds × Aabb)) (bodies : List RegionBody)
    (hB : SimulationBounds.cmp SimulationBounds.smallest B = .lt)
    (hw : ∀ b ∈ bodies, ∀ r, b.watched = some r →
      SimulationBounds.cmp B r = .lt)
    (hobjs : ∀ o ∈ objs, SimulationBounds.cmp B o.1 = .lt)
    (hbound : ∀ b ∈ bodies, SimulationBounds.cmp SimulationBounds.smallest
      (SimulationBounds.fromAabb b.aabb defaultWidth) = .lt) :
    (isMigrated B objs bodies = true →
      SimulationBounds.cmp B (componentRegion B objs bodies) = .lt ∨
        (SimulationBounds.cmp (componentRegion B objs bodies) B = .lt ∧
          ∃ b ∈ bodies,
            (candidateRegion B objs b).1 = componentRegion B objs bodies ∧
              minSendbackDelay ≤ b.userData)) ∧
    (∀ b ∈ bodies, b.watched = none → watchHits objs b.aabb = [] →
      SimulationBounds.cmp (SimulationBounds.fromAabb b.aabb defaultWidth) B
          = .lt →
      b.userData < minSendbackDelay →
      candidateRegion B objs b = (B, b.userData + 1)) := by
  constructor
  · intro hmig
    simp only [isMigrated, Bool.or_eq_true, decide_eq_true_eq] at hmig
    rcases hmig with hgt | hlt
    · left
      rw [← SimulationBounds.cmp_gt_iff_lt]
      exact hgt
    · right
      refine ⟨hlt, ?_⟩
      rcases bodies with _ | ⟨b0, rest⟩
      · exfalso
        simp only [componentRegion] at hlt
        rw [SimulationBounds.cmp_refl] at hlt
        exact absurd hlt (by decide)
      · have hfold : componentRegion B objs (b0 :: rest) =
            ((b0 :: rest).map (fun b => (candidateRegion B objs b).1)).foldl
              (fun best c => if SimulationBounds.cmp c best = .gt then c
                else best) SimulationBounds.smallest := rfl
        rcases electionFold_attained
            ((b0 :: rest).map (fun b => (candidateRegion B objs b).1))
            SimulationBounds.smallest with hsm | hmem
        · exfalso
          have hb0 : b0 ∈ b0 :: rest := List.mem_cons_self b0 rest
          have hcand := candidate_above_smallest B objs b0 hB
            (hw b0 hb0) hobjs (hbound b0 hb0)
          have hub := electionFold_upper
            ((b0 :: rest).map (fun b => (candidateRegion B objs b).1))
            SimulationBounds.smallest (candidateRegion B objs b0).1
            (List.mem_map.2 ⟨b0, hb0, rfl⟩)
          rw [hsm] at hub
          rw [← SimulationBounds.cmp_gt_iff_lt] at hcand
          exact hub hcand
        · rw [← hfold] at hmem
          rcases List.mem_map.1 hmem with ⟨b, hb, hbr⟩
          have hchar := candidate_below_current B objs b (hw b hb) hobjs
            (by rw [hbr]; exact hlt)
          exact ⟨b, hb, hbr, hchar.2⟩
  · intro b _hb hwtch hhits hgeom hcnt
    simp only [candidateRegion, hwtch, hhits, if_pos hgeom, if_pos hcnt]

/-- Concrete region of edge 100 at the origin, used by witnesses. -/
def c1B : SimulationBounds :=
  { mins0 := 0, mins1 := 0, mins2 := 0, maxs0 := 100, maxs1 := 100, maxs2 := 100 }

/-- Concrete unwatched body whose AABB max corner lies in the next region
along x, used by the witness of the election theorem. -/
def c1Body : RegionBody :=
  { watched := none, aabb := { mins0 := 1, mins1 := 1, mins2 := 1,
                               maxs0 := 150, maxs1 := 2, maxs2 := 2 },
    userData := 0 }

/-- Witness for c1_election_total_order on a one-body component whose
geometric region lies strictly above the current region. -/
theorem c1_election_total_order_witness :
    (isMigrated c1B [] [c1Body] = true →
      SimulationBounds.cmp c1B (componentRegion c1B [] [c1Body]) = .lt ∨
        (SimulationBounds.cmp (componentRegion c1B [] [c1Body]) c1B = .lt ∧
          ∃ b ∈ [c1Body],
            (candidateRegion c1B [] b).1 = componentRegion c1B [] [c1Body] ∧
              minSendbackDelay ≤ b.userData)) ∧
    (∀ b ∈ [c1Body], b.watched = none → watchHits [] b.aabb = [] →
      SimulationBounds.cmp (SimulationBounds.fromAabb b.aabb defaultWidth) c1B
          = .lt →
      b.userData < minSendbackDelay →
      candidateRegion c1B [] b = (c1B, b.userData + 1)) :=
  c1_election_total_order c1B [] [c1Body] (by decide)
    (fun b hb r hr => by
      rw [List.mem_singleton] at hb
      subst hb
      exact absurd hr (by simp [c1Body]))
    (fun o ho => absurd ho (List.not_mem_nil o))
    (fun b hb => by
      rw [List.mem_singleton] at hb
      subst hb
      decide)

/-- The per-body data consumed by compute_watch_data (watch.rs): the body
handle, its uuid, whether it is dynamic, and the swept AABB predicted by
the physics engine over the N substeps (external per the physics-engine
contract). -/
structure WatchBody where
  handle : Nat
  uuid : Nat
  isDynamic : Bool
  sweptAabb : Aabb
deriving DecidableEq

/-- compute_watch_data (watch.rs): every dynamic body that is not a watch
entry and not reassigned out this tick contributes (uuid, swept AABB),
unless its swept AABB is fully contained in the region's AABB. -/
def computeWatchData (simBounds : SimulationBounds) (bodies : List WatchBody)
    (watchedKeys : List Nat) (reassigned : List Nat) : List (Nat × Aabb) :=
  bodies.filterMap (fun b =>
    if b.isDynamic && !(decide (b.handle ∈ watchedKeys)) &&
        !(decide (b.handle ∈ reassigned)) &&
        !(Aabb.containsAabb (SimulationBounds.toAabb simBounds) b.sweptAabb)
      then some (b.uuid, b.sweptAabb)
      else none)

theorem watchEntry_some_iff (B : SimulationBounds)
    (watchedKeys reassigned : List Nat) (b : WatchBody) (u : Nat) (a : Aabb) :
    (if b.isDynamic && !(decide (b.handle ∈ watchedKeys)) &&
        !(decide (b.handle ∈ reassigned)) &&
        !(Aabb.containsAabb (SimulationBounds.toAabb B) b.sweptAabb)
      then some (b.uuid, b.sweptAabb)
      else none) = some (u, a) ↔
    (b.uuid = u ∧ b.sweptAabb = a ∧ b.isDynamic = true ∧
      b.handle ∉ watchedKeys ∧ b.handle ∉ reassigned ∧
      Aabb.containsAabb (SimulationBounds.toAabb B) a = false) := by
  split_ifs with hcond
  · simp only [Bool.and_eq_true, Bool.not_eq_true', decide_eq_false_iff_not]
      at hcond
    obtain ⟨⟨⟨hdyn, hw1⟩, hw2⟩, hcont⟩ := hcond
    constructor
    · intro hsome
      obtain ⟨hu, ha⟩ := Prod.mk.injEq .. ▸ Option.some.inj hsome
      subst hu
      subst ha
      exact ⟨rfl, rfl, hdyn, hw1, hw2, hcont⟩
    · rintro ⟨hu, ha, -, -, -, -⟩
      rw [hu, ha]
  · simp only [Bool.and_eq_true, Bool.not_eq_true', decide_eq_false_iff_not]
      at hcond
    constructor
    · intro hsome
      exact absurd hsome (by simp)
    · rintro ⟨hu, ha, hdyn, hw1, hw2, hcont⟩
      subst ha
      exact absurd ⟨⟨⟨hdyn, hw1⟩, hw2⟩, hcont⟩ hcond

/-- Claim C4: the watch set published for region B contains (uuid, swept
AABB) exactly for the bodies that are dynamic, not themselves watch
entries, not migrated out this tick, and whose swept AABB is not fully
contained in the region AABB; in particular (when uuids are unique) a
body whose swept AABB lies inside the region never appears. -/
theorem c4_watch_set_membership (B : SimulationBounds)
    (bodies : List WatchBody) (watchedKeys reassigned : List Nat) :
    (∀ u a, (u, a) ∈ computeWatchData B bodies watchedKeys reassigned ↔
      ∃ b ∈ bodies, b.uuid = u ∧ b.sweptAabb = a ∧ b.isDynamic = true ∧
        b.handle ∉ watchedKeys ∧ b.handle ∉ reassigned ∧
        Aabb.containsAabb (SimulationBounds.toAabb B) a = false) ∧
    ((∀ b1 ∈ bodies, ∀ b2 ∈ bodies, b1.uuid = b2.uuid → b1 = b2) →
      ∀ b ∈ bodies,
        Aabb.containsAabb (SimulationBounds.toAabb B) b.sweptAabb = true →
        b.uuid ∉ (computeWatchData B bodies watchedKeys reassigned).map
          Prod.fst) := by
  have hmem : ∀ u a, (u, a) ∈ computeWatchData B bodies watchedKeys reassigned ↔
      ∃ b ∈ bodies, b.uuid = u ∧ b.sweptAabb = a ∧ b.isDynamic = true ∧
        b.handle ∉ watchedKeys ∧ b.handle ∉ reassigned ∧
        Aabb.containsAabb (SimulationBounds.toAabb B) a = false := by
    intro u a
    unfold computeWatchData
    rw [List.mem_filterMap]
    constructor
    · rintro ⟨b, hb, hfb⟩
      exact ⟨b, hb, (watchEntry_some_iff B watchedKeys reassigned b u a).1 hfb⟩
    · rintro ⟨b, hb, hprops⟩
      exact ⟨b, hb,
        (watchEntry_some_iff B watchedKeys reassigned b u a).2 hprops⟩
  refine ⟨hmem, ?_⟩
  intro hinj b hb hcont hin
  rcases List.mem_map.1 hin with ⟨⟨u, a⟩, hua, hufst⟩
  rcases (hmem u a).1 hua with ⟨b2, hb2, hu2, ha2, -, -, -, hcont2⟩
  have hbb : b2 = b := hinj b2 hb2 b hb (by rw [hu2, ← hufst])
  rw [hbb] at ha2
  rw [← ha2] at hcont2
  rw [hcont] at hcont2
  exact absurd hcont2 (by decide)

/-- Concrete body for the watch-set witness: dynamic, unwatched, not
reassigned, with a swept AABB leaving the region. -/
def c4Body : WatchBody :=
  { handle := 1, uuid := 5, isDynamic := true,
    sweptAabb := { mins0 := 50, mins1 := 0, mins2 := 0,
                   maxs0 := 150, maxs1 := 10, maxs2 := 10 } }

/-- Witness for c4_watch_set_membership: the concrete boundary-straddling
body appears in the computed watch set. -/
theorem c4_watch_set_membership_witness :
    (5, c4Body.sweptAabb) ∈ computeWatchData c1B [c4Body] [] [] :=
  ((c4_watch_set_membership c1B [c4Body] [] []).1 5 c4Body.sweptAabb).2
    ⟨c4Body, List.mem_singleton.2 rfl, rfl, rfl, rfl,
      List.not_mem_nil _, List.not_mem_nil _, by decide⟩

/-- Association-list lookup (models HashMap / Coarena access). -/
def alookup {α β : Type} [DecidableEq α] : List (α × β) → α → Option β
  | [], _ => none
  | (k, v) :: t, a => if k = a then some v else alookup t a

/-- Association-list insert with replacement (models HashMap::insert). -/
def ainsert {α β : Type} [DecidableEq α] (l : List (α × β)) (a : α) (v : β) :
    List (α × β) :=
  (l.filter (fun kv => !(decide (kv.1 = a)))) ++ [(a, v)]

theorem alookup_filter_ne {α β : Type} [DecidableEq α]
    (l : List (α × β)) (a k : α) (hk : k ≠ a) :
    alookup (l.filter (fun kv => !(decide (kv.1 = a)))) k = alookup l k := by
  induction l with
  | nil => rfl
  | cons hd t ih =>
    rcases hd with ⟨k1, v1⟩
    by_cases hhd : k1 = a
    · rw [List.filter_cons_of_neg (by simp [hhd])]
      rw [ih]
      have hne : ¬(k1 = k) := fun h => hk (h ▸ hhd)
      simp only [alookup, if_neg hne]
    · rw [List.filter_cons_of_pos (by simp [hhd])]
      simp only [alookup]
      by_cases hkk : k1 = k
      · rw [if_pos hkk, if_pos hkk]
      · rw [if_neg hkk, if_neg hkk]
        exact ih

theorem alookup_append_single_ne {α β : Type} [DecidableEq α]
    (l : List (α × β)) (a k : α) (v : β) (hk : k ≠ a) :
    alookup (l ++ [(a, v)]) k = alookup l k := by
  induction l with
  | nil =>
    simp only [List.nil_append, alookup, if_neg (Ne.symm hk)]
  | cons hd t ih =>
    rcases hd with ⟨k1, v1⟩
    simp only [List.cons_append, alookup]
    by_cases hkk : k1 = k
    · rw [if_pos hkk, if_pos hkk]
    · rw [if_neg hkk, if_neg hkk]
      exact ih

theorem alookup_ainsert_ne {α β : Type} [DecidableEq α]
    (l : List (α × β)) (a k : α) (v : β) (hk : k ≠ a) :
    alookup (ainsert l a v) k = alookup l k := by
  unfold ainsert
  rw [alookup_append_single_ne _ _ _ _ hk, alookup_filter_ne _ _ _ hk]

/-- NUM_INTERNAL_STEPS = 10 (steadyum-api-types/src/partitionner.rs). -/
def numInternalSteps : Nat := 10

/-- A body of the local physics world as consumed by
compute_client_objects (runner.rs): handle, uuid, current position, shape,
body type and whether the engine reports it sleeping.  Position, shape and
body type are opaque payload tokens: the snapshot only copies them. -/
structure SimBody where
  handle : Nat
  uuid : Nat
  pos : Int
  shape : Nat
  bodyType : Nat
  sleeping : Bool
deriving DecidableEq

/-- BodyAssignment: a pending assignment (cold + warm descriptors). -/
structure BodyAssignment where
  uuid : Nat
  warmPos : Int
  warmTimestamp : Nat
  shape : Nat
  bodyType : Nat
deriving DecidableEq

/-- ClientBodyObject (steadyum-api-types/src/objects.rs). -/
structure ClientBodyObject where
  uuid : Nat
  pos : Int
  shape : Nat
  bodyType : Nat
  sleepStartFrame : Option Nat
deriving DecidableEq

/-- ClientBodyObjectSet (steadyum-api-types/src/objects.rs). -/
structure ClientBodyObjectSet where
  timestamp : Nat
  objects : List ClientBodyObject
deriving DecidableEq

/-- The state read and written by compute_client_objects: the current step
id, the local bodies, the watch-sensor key set (sim_state.watched_objects)
and the per-handle sleep attribute (BodyAttributes.sleep_step_id). -/
structure ClientSimState where
  stepId : Nat
  bodies : List SimBody
  watchedKeys : List Nat
  attrs : List (Nat × Option Nat)
deriving DecidableEq

/-- The sleep attribute update of compute_client_objects: on the first
tick a body is observed sleeping the attribute is set to the current
timestamp; while it stays asleep the attribute is kept; when it is awake
the attribute is cleared. -/
def updateSleepAttr (timestamp : Nat) (sleeping : Bool) (old : Option Nat) :
    Option Nat :=
  if sleeping then
    match old with
    | some t => some t
    | none => some timestamp
  else none

/-- The body loop of compute_client_objects: bodies in the watch-sensor
set are skipped; every other body updates its sleep attribute and emits a
client object carrying the updated attribute. -/
def clientLoop (timestamp : Nat) (watchedKeys : List Nat) :
    List SimBody → List (Nat × Option Nat) →
      (List ClientBodyObject × List (Nat × Option Nat))
  | [], attrs => ([], attrs)
  | b :: rest, attrs =>
    if b.handle ∈ watchedKeys then clientLoop timestamp watchedKeys rest attrs
    else
      let oldAttr := (alookup attrs b.handle).getD none
      let newAttr := updateSleepAttr timestamp b.sleeping oldAttr
      let attrs2 := ainsert attrs b.handle newAttr
      let res := clientLoop timestamp watchedKeys rest attrs2
      ({ uuid := b.uuid, pos := b.pos, shape := b.shape,
         bodyType := b.bodyType, sleepStartFrame := newAttr } :: res.1, res.2)

/-- compute_client_objects (runner.rs): timestamp = step_id * N; one
client object per non-watched body, then one per pending assignment (the
latter with no sleep frame); returns the set and the updated sleep
attributes. -/
def computeClientObjects (s : ClientSimState)
    (pending : List BodyAssignment) :
    ClientBodyObjectSet × List (Nat × Option Nat) :=
  let timestamp := s.stepId * numInternalSteps
  let res := clientLoop timestamp s.watchedKeys s.bodies s.attrs
  let pendingObjs := pending.map (fun p =>
    ({ uuid := p.uuid, pos := p.warmPos, shape := p.shape,
       bodyType := p.bodyType, sleepStartFrame := none } : ClientBodyObject))
  ({ timestamp := timestamp, objects := res.1 ++ pendingObjs }, res.2)

/-- The per-tick snapshot publication of run_simulation (runner.rs, the
call after the physics step): compute_client_objects is invoked with an
EMPTY pending slice, so pending-but-unrealized assignments never appear in
the snapshot published at the end of a tick. -/
def tickClientSnapshot (s : ClientSimState) :
    ClientBodyObjectSet × List (Nat × Option Nat) :=
  computeClientObjects s []

/-- The snapshot published when a SyncClientObjects message is processed
(process_message in runner.rs): here the pending assignments are passed
through. -/
def syncClientSnapshot (s : ClientSimState) (pending : List BodyAssignment) :
    ClientBodyObjectSet × List (Nat × Option Nat) :=
  computeClientObjects s pending

theorem clientLoop_mem (t : Nat) (wk : List Nat) (bodies : List SimBody)
    (attrs : List (Nat × Option Nat))
    (hnodup : (bodies.map SimBody.handle).Nodup)
    (b : SimBody) (hb : b ∈ bodies) (hw : b.handle ∉ wk) :
    ({ uuid := b.uuid, pos := b.pos, shape := b.shape, bodyType := b.bodyType,
       sleepStartFrame := updateSleepAttr t b.sleeping
         ((alookup attrs b.handle).getD none) } : ClientBodyObject)
      ∈ (clientLoop t wk bodies attrs).1 := by
  induction bodies generalizing attrs with
  | nil => exact absurd hb (List.not_mem_nil b)
  | cons hd rest ih =>
    rcases List.mem_cons.1 hb with hbh | hbr
    · subst hbh
      simp only [clientLoop, if_neg hw]
      exact List.mem_cons_self _ _
    · have hnodup2 : (rest.map SimBody.handle).Nodup :=
        (List.nodup_cons.1 hnodup).2
      by_cases hhd : hd.handle ∈ wk
      · simp only [clientLoop, if_pos hhd]
        exact ih attrs hnodup2 hbr
      · simp only [clientLoop, if_neg hhd]
        refine List.mem_cons.2 (Or.inr ?_)
        have hne : b.handle ≠ hd.handle := by
          intro hcontra
          have hmem : hd.handle ∈ rest.map SimBody.handle :=
            List.mem_map.2 ⟨b, hbr, hcontra⟩
          exact (List.nodup_cons.1 hnodup).1 hmem
        have hlk := alookup_ainsert_ne attrs hd.handle b.handle
          (updateSleepAttr t hd.sleeping ((alookup attrs hd.handle).getD none))
          hne
        have := ih (ainsert attrs hd.handle
          (updateSleepAttr t hd.sleeping ((alookup attrs hd.handle).getD none)))
          hnodup2 hbr
        rw [hlk] at this
        exact this

theorem clientLoop_sources (t : Nat) (wk : List Nat) (bodies : List SimBody)
    (attrs : List (Nat × Option Nat)) (o : ClientBodyObject)
    (ho : o ∈ (clientLoop t wk bodies attrs).1) :
    ∃ b ∈ bodies, o.uuid = b.uuid := by
  induction bodies generalizing attrs with
  | nil => exact absurd ho (List.not_mem_nil o)
  | cons hd rest ih =>
    by_cases hhd : hd.handle ∈ wk
    · simp only [clientLoop, if_pos hhd] at ho
      rcases ih attrs ho with ⟨b, hb, hu⟩
      exact ⟨b, List.mem_cons.2 (Or.inr hb), hu⟩
    · simp only [clientLoop, if_neg hhd] at ho
      rcases List.mem_cons.1 ho with hoh | hor
      · exact ⟨hd, List.mem_cons_self hd rest, by rw [hoh]⟩
      · rcases ih _ hor with ⟨b, hb, hu⟩
        exact ⟨b, List.mem_cons.2 (Or.inr hb), hu⟩

/-- Claim C5 (amended): the snapshot computed after a tick has timestamp
step_id * N; every body (in particular every dynamic body) outside the
watch sensor set appears with its current position, shape, body type and
the sleep-start frame given by the first-sleep / cleared-on-wake update;
pending-but-unrealized assignments appear in the SyncClientObjects
snapshot (with no sleep frame), but the per-tick publication is computed
with an empty pending list, so its objects all come from live bodies. -/
theorem c5_client_snapshot (s : ClientSimState) (pending : List BodyAssignment)
    (hnodup : (s.bodies.map SimBody.handle).Nodup) :
    (computeClientObjects s pending).1.timestamp = s.stepId * numInternalSteps ∧
    (∀ b ∈ s.bodies, b.handle ∉ s.watchedKeys →
      ({ uuid := b.uuid, pos := b.pos, shape := b.shape, bodyType := b.bodyType,
         sleepStartFrame := updateSleepAttr (s.stepId * numInternalSteps)
           b.sleeping ((alookup s.attrs b.handle).getD none) } : ClientBodyObject)
        ∈ (computeClientObjects s pending).1.objects) ∧
    (∀ p ∈ pending,
      ({ uuid := p.uuid, pos := p.warmPos, shape := p.shape,
         bodyType := p.bodyType, sleepStartFrame := none } : ClientBodyObject)
        ∈ (syncClientSnapshot s pending).1.objects) ∧
    (∀ o ∈ (tickClientSnapshot s).1.objects, ∃ b ∈ s.bodies, o.uuid = b.uuid) := by
  refine ⟨rfl, ?_, ?_, ?_⟩
  · intro b hb hw
    simp only [computeClientObjects]
    refine List.mem_append.2 (Or.inl ?_)
    exact clientLoop_mem (s.stepId * numInternalSteps) s.watchedKeys s.bodies
      s.attrs hnodup b hb hw
  · intro p hp
    simp only [syncClientSnapshot, computeClientObjects]
    refine List.mem_append.2 (Or.inr ?_)
    exact List.mem_map.2 ⟨p, hp, rfl⟩
  · intro o ho
    simp only [tickClientSnapshot, computeClientObjects, List.map_nil,
      List.append_nil] at ho
    exact clientLoop_sources _ _ _ _ o ho

/-- Concrete simulator state for the snapshot counterexample: step 3, no
live bodies, one pending assignment still unrealized. -/
def c5ExState : ClientSimState :=
  { stepId := 3, bodies := [], watchedKeys := [], attrs := [] }

/-- The unrealized pending assignment of the counterexample. -/
def c5ExPending : List BodyAssignment :=
  [{ uuid := 7, warmPos := 0, warmTimestamp := 99, shape := 1, bodyType := 1 }]

/-- Counterexample to claim C5 as stated: after a tick with a pending
but unrealized assignment (uuid 7), the snapshot published by the tick
(run_simulation passes an empty pending slice to compute_client_objects)
does not contain the pending assignment. -/
theorem c5_tick_snapshot_counterexample :
    ¬ (∀ p ∈ c5ExPending, ∃ o ∈ (tickClientSnapshot c5ExState).1.objects,
        o.uuid = p.uuid) := by
  decide

/-- Concrete one-body state for the snapshot witness. -/
def c5WitState : ClientSimState :=
  { stepId := 2,
    bodies := [{ handle := 0, uuid := 4, pos := 11, shape := 2, bodyType := 0,
                 sleeping := true }],
    watchedKeys := [], attrs := [] }

/-- Witness for c5_client_snapshot on the concrete one-body state. -/
theorem c5_client_snapshot_witness :
    (computeClientObjects c5WitState []).1.timestamp =
        c5WitState.stepId * numInternalSteps ∧
    (∀ b ∈ c5WitState.bodies, b.handle ∉ c5WitState.watchedKeys →
      ({ uuid := b.uuid, pos := b.pos, shape := b.shape, bodyType := b.bodyType,
         sleepStartFrame := updateSleepAttr
           (c5WitState.stepId * numInternalSteps) b.sleeping
           ((alookup c5WitState.attrs b.handle).getD none) } : ClientBodyObject)
        ∈ (computeClientObjects c5WitState []).1.objects) ∧
    (∀ p ∈ ([] : List BodyAssignment),
      ({ uuid := p.uuid, pos := p.warmPos, shape := p.shape,
         bodyType := p.bodyType, sleepStartFrame := none } : ClientBodyObject)
        ∈ (syncClientSnapshot c5WitState []).1.objects) ∧
    (∀ o ∈ (tickClientSnapshot c5WitState).1.objects,
      ∃ b ∈ c5WitState.bodies, o.uuid = b.uuid) :=
  c5_client_snapshot c5WitState [] (by decide)

/-- filter_object_set (storage.rs): keep an object when its
sleep_start_frame is unset or at least the queried step id. -/
def filterObjectSet (stepId : Nat) (objectSet : ClientBodyObjectSet) :
    ClientBodyObjectSet :=
  { objectSet with
    objects := objectSet.objects.filter (fun obj =>
      match obj.sleepStartFrame with
      | some f => decide (stepId ≤ f)
      | none => true) }

/-- The client_bodies queryable (listen_storage_queries_for_client_objects
in storage.rs): the stored set for the queried region is filtered by the
queried step id; an unknown region answers the default empty set. -/
def answerClientQuery (sets : List (SimulationBounds × ClientBodyObjectSet))
    (region : SimulationBounds) (stepId : Nat) : ClientBodyObjectSet :=
  match alookup sets region with
  | some stored => filterObjectSet stepId stored
  | none => { timestamp := 0, objects := [] }

/-- Claim C9: the answer to a client_bodies query for a stored object set
keeps exactly the bodies whose sleep_start_frame is unset or at least the
queried step id, keeps the stored timestamp, and modifies no retained
body (the answer is a sublist of the stored objects). -/
theorem c9_client_query_filter
    (sets : List (SimulationBounds × ClientBodyObjectSet))
    (region : SimulationBounds) (stepId : Nat) (stored : ClientBodyObjectSet)
    (hstored : alookup sets region = some stored) :
    (answerClientQuery sets region stepId).timestamp = stored.timestamp ∧
    (∀ o, o ∈ (answerClientQuery sets region stepId).objects ↔
      (o ∈ stored.objects ∧ (o.sleepStartFrame = none ∨
        ∃ f, o.sleepStartFrame = some f ∧ stepId ≤ f))) ∧
    (answerClientQuery sets region stepId).objects.Sublist stored.objects := by
  have hq : answerClientQuery sets region stepId = filterObjectSet stepId stored := by
    unfold answerClientQuery
    rw [hstored]
  rw [hq]
  refine ⟨rfl, ?_, ?_⟩
  · intro o
    unfold filterObjectSet
    rw [List.mem_filter]
    constructor
    · rintro ⟨hmem, hcond⟩
      refine ⟨hmem, ?_⟩
      rcases hsf : o.sleepStartFrame with _ | f
      · exact Or.inl rfl
      · rw [hsf] at hcond
        simp only [decide_eq_true_eq] at hcond
        exact Or.inr ⟨f, rfl, hcond⟩
    · rintro ⟨hmem, hcond⟩
      refine ⟨hmem, ?_⟩
      rcases hcond with hnone | ⟨f, hsome, hle⟩
      · rw [hnone]
      · rw [hsome]
        simp only [decide_eq_true_eq]
        exact hle
  · exact List.filter_sublist stored.objects

/-- Concrete stored object set for the query-filter witness: one awake
body, one long-asleep body. -/
def c9Stored : ClientBodyObjectSet :=
  { timestamp := 40,
    objects := [{ uuid := 1, pos := 0, shape := 0, bodyType := 0,
                  sleepStartFrame := none },
                { uuid := 2, pos := 0, shape := 0, bodyType := 0,
                  sleepStartFrame := some 3 }] }

/-- Witness for c9_client_query_filter on a concrete stored set at
step 10: the asleep-since-3 body is dropped, the awake one kept. -/
theorem c9_client_query_filter_witness :
    (answerClientQuery [(c1B, c9Stored)] c1B 10).timestamp =
        c9Stored.timestamp ∧
    (∀ o, o ∈ (answerClientQuery [(c1B, c9Stored)] c1B 10).objects ↔
      (o ∈ c9Stored.objects ∧ (o.sleepStartFrame = none ∨
        ∃ f, o.sleepStartFrame = some f ∧ 10 ≤ f))) ∧
    (answerClientQuery [(c1B, c9Stored)] c1B 10).objects.Sublist
      c9Stored.objects :=
  c9_client_query_filter [(c1B, c9Stored)] c1B 10 c9Stored (by decide)

/-- Association-list pointwise update of one key (models updating the
fields of the SceneAcks stored for one scene). -/
def aupdate {α β : Type} [DecidableEq α] (l : List (α × β)) (a : α)
    (f : β → β) : List (α × β) :=
  l.map (fun kv => if kv.1 = a then (kv.1, f kv.2) else kv)

theorem alookup_aupdate_eq {α β : Type} [DecidableEq α]
    (l : List (α × β)) (a : α) (f : β → β) :
    alookup (aupdate l a f) a = (alookup l a).map f := by
  induction l with
  | nil => rfl
  | cons hd t ih =>
    rcases hd with ⟨k1, v1⟩
    simp only [aupdate, List.map_cons]
    by_cases hk : k1 = a
    · rw [if_pos hk]
      simp only [alookup, if_pos hk]
      rfl
    · rw [if_neg hk]
      simp only [alookup, if_neg hk]
      exact ih

theorem alookup_aupdate_ne {α β : Type} [DecidableEq α]
    (l : List (α × β)) (a k : α) (f : β → β) (hk : k ≠ a) :
    alookup (aupdate l a f) k = alookup l k := by
  induction l with
  | nil => rfl
  | cons hd t ih =>
    rcases hd with ⟨k1, v1⟩
    simp only [aupdate, List.map_cons]
    by_cases h1 : k1 = a
    · rw [if_pos h1]
      have hne : ¬(k1 = k) := fun h => hk (h ▸ h1)
      simp only [alookup, if_neg hne]
      exact ih
    · rw [if_neg h1]
      simp only [alookup]
      by_cases h2 : k1 = k
      · rw [if_pos h2, if_pos h2]
      · rw [if_neg h2, if_neg h2]
        exact ih

theorem alookup_ainsert_eq {α β : Type} [DecidableEq α]
    (l : List (α × β)) (a : α) (v : β) :
    alookup (ainsert l a v) a = some v := by
  unfold ainsert
  induction l with
  | nil => simp [alookup]
  | cons hd t ih =>
    rcases hd with ⟨k1, v1⟩
    by_cases hk : k1 = a
    · rw [List.filter_cons_of_neg (by simp [hk])]
      exact ih
    · rw [List.filter_cons_of_pos (by simp [hk])]
      simp only [List.cons_append, alookup, if_neg hk]
      exact ih

theorem alookup_filter_self {α β : Type} [DecidableEq α]
    (l : List (α × β)) (a : α) :
    alookup (l.filter (fun kv => !(decide (kv.1 = a)))) a = none := by
  induction l with
  | nil => rfl
  | cons hd t ih =>
    rcases hd with ⟨k1, v1⟩
    by_cases hk : k1 = a
    · rw [List.filter_cons_of_neg (by simp [hk])]
      exact ih
    · rw [List.filter_cons_of_pos (by simp [hk])]
      simp only [alookup, if_neg hk]
      exact ih

theorem filter_self_idem {α : Type} (l : List α) (p : α → Bool) :
    (l.filter p).filter p = l.filter p := by
  induction l with
  | nil => rfl
  | cons hd t ih =>
    by_cases hp : p hd = true
    · simp only [List.filter_cons_of_pos hp, ih]
    · simp only [List.filter_cons_of_neg hp, ih]

theorem filter_not_then_filter {α : Type} (l : List α) (p : α → Bool) :
    (l.filter (fun x => !(p x))).filter p = [] := by
  induction l with
  | nil => rfl
  | cons hd t ih =>
    cases hp : p hd
    · rw [List.filter_cons_of_pos (by simp [hp]),
        List.filter_cons_of_neg (by simp [hp])]
      exact ih
    · rw [List.filter_cons_of_neg (by simp [hp])]
      exact ih

/-- Scene-domain AABB with rational coordinates, mirroring the f32 parry
Aabb manipulated by create_scene (the subdivision only averages and
compares coordinates). -/
structure DomainAabb where
  mins0 : Rat
  mins1 : Rat
  mins2 : Rat
  maxs0 : Rat
  maxs1 : Rat
  maxs2 : Rat
deriving DecidableEq

/-- split_aabb (create_scene in steadyum-partitionner/src/main.rs): the
split axis is extents.xz().imax() * 2 (the widest of the two horizontal
axes, the x axis winning ties per nalgebra imax), and the box is cut at
its center along that axis. -/
def splitAabb (a : DomainAabb) : DomainAabb × DomainAabb :=
  if a.maxs2 - a.mins2 > a.maxs0 - a.mins0 then
    ({ a with maxs2 := (a.mins2 + a.maxs2) / 2 },
     { a with mins2 := (a.mins2 + a.maxs2) / 2 })
  else
    ({ a with maxs0 := (a.mins0 + a.maxs0) / 2 },
     { a with mins0 := (a.mins0 + a.maxs0) / 2 })

/-- The queue loop of subdivide_domain: n times, pop the front box and
push its two halves at the back. -/
def subdivideLoop : Nat → List DomainAabb → List DomainAabb
  | 0, q => q
  | _ + 1, [] => []
  | n + 1, d :: rest =>
    subdivideLoop n (rest ++ [(splitAabb d).1, (splitAabb d).2])

/-- subdivide_domain (main.rs): seed the queue with the domain and run the
loop for 1..num_subdivs, that is num_subdivs - 1 iterations (zero
iterations when num_subdivs is 0 or 1). -/
def subdivideDomain (domain : DomainAabb) (numSubdivs : Nat) :
    List DomainAabb :=
  subdivideLoop (numSubdivs - 1) [domain]

theorem subdivideLoop_length (n : Nat) :
    ∀ q : List DomainAabb, q ≠ [] →
      (subdivideLoop n q).length = q.length + n := by
  induction n with
  | zero => intro q _; rfl
  | succ m ih =>
    intro q hq
    rcases q with _ | ⟨d, rest⟩
    · exact absurd rfl hq
    · have hne : rest ++ [(splitAabb d).1, (splitAabb d).2] ≠ [] := by
        simp
      have := ih (rest ++ [(splitAabb d).1, (splitAabb d).2]) hne
      simp only [subdivideLoop, this, List.length_append, List.length_cons]
      simp
      omega

/-- SceneAcks (main.rs): the pending ack counter (an isize), the current
step id and the step limit. -/
structure SceneAcks where
  pendingAcks : Int
  stepId : Nat
  stepLimit : Nat
deriving DecidableEq

/-- The Master coordinator state (SharedState in main.rs, Master type):
one cluster-global running flag, the registered children (only their
count matters to the embedded operations), and the per-scene maps. -/
structure MasterState where
  running : Bool
  numChildren : Nat
  scenesAcks : List (Nat × SceneAcks)
  scenesGeometries : List (Nat × List DomainAabb)
  staticBodies : List (Nat × List Nat)
  exited : List Nat
  assigned : List ((Nat × SimulationBounds) × Nat)
  perNode : List (Nat × List Nat)
deriving DecidableEq

/-- The step endpoint at a Master (main.rs): dropped when the global
running flag is false or the scene is unknown; otherwise stores
pending = number of children and the step id, and fans a step request out
to every child.  Emissions are the (scene, step_id) child requests. -/
def stepM (s : MasterState) (scene : Nat) (stepId : Nat) :
    MasterState × List (Nat × Nat) :=
  if s.running = false then (s, [])
  else
    match alookup s.scenesAcks scene with
    | none => (s, [])
    | some _ =>
      ({ s with scenesAcks := aupdate s.scenesAcks scene (fun ac =>
          { ac with pendingAcks := (s.numChildren : Int), stepId := stepId }) },
       List.replicate s.numChildren (scene, stepId))

/-- The ack endpoint at a Master (main.rs): an unknown scene is ignored;
otherwise the pending counter is decremented and, when the value before
the decrement was at most 1, the step id is incremented and either the
next step is requested (within the limit) or the running flag is
cleared. -/
def ackM (s : MasterState) (scene : Nat) : MasterState × List (Nat × Nat) :=
  match alookup s.scenesAcks scene with
  | none => (s, [])
  | some a =>
    if a.pendingAcks ≤ 1 then
      if a.stepId + 1 ≤ a.stepLimit then
        stepM
          { s with
            scenesAcks :=
              aupdate (aupdate s.scenesAcks scene (fun ac =>
                  { ac with pendingAcks := ac.pendingAcks - 1 })) scene
                (fun ac => { ac with stepId := a.stepId + 1 }) }
          scene (a.stepId + 1)
      else
        ({ s with
           running := false,
           scenesAcks :=
             aupdate (aupdate s.scenesAcks scene (fun ac =>
                 { ac with pendingAcks := ac.pendingAcks - 1 })) scene
               (fun ac => { ac with stepId := a.stepId + 1 }) }, [])
    else
      ({ s with
         scenesAcks :=
           aupdate s.scenesAcks scene (fun ac =>
             { ac with pendingAcks := ac.pendingAcks - 1 }) }, [])

/-- The start_stop endpoint at a Master (main.rs): swaps the single
global running flag; a false-to-true transition re-issues the current
step (or step 1 for an unknown scene), or clears the flag again when the
scene already reached its limit. -/
def startStopM (s : MasterState) (scene : Nat) (runningReq : Bool) :
    MasterState × List (Nat × Nat) :=
  let wasRunning := s.running
  let s0 := { s with running := runningReq }
  if runningReq && !wasRunning then
    match alookup s0.scenesAcks scene with
    | some a =>
      if a.stepId < a.stepLimit then stepM s0 scene a.stepId
      else ({ s0 with running := false }, [])
    | none => stepM s0 scene 1
  else (s0, [])

/-- create_scene at a Master (main.rs): stores the children bounds from
subdivide_domain, an empty static-body list, fresh SceneAcks, and the
per-child runner uuids answered by the children. -/
def createSceneM (s : MasterState) (scene : Nat) (bounds : DomainAabb)
    (runnerUuids : List Nat) : MasterState :=
  { s with
    scenesGeometries := ainsert s.scenesGeometries scene
      (subdivideDomain bounds s.numChildren),
    staticBodies := ainsert s.staticBodies scene [],
    scenesAcks := ainsert s.scenesAcks scene
      { pendingAcks := 0, stepId := 0, stepLimit := 0 },
    perNode := ainsert s.perNode scene runnerUuids }

/-- remove_scene at a Master (main.rs): marks the scene exited, sends
Exit to the runners recorded for the scene, drops the per-node entry and
the (scene, region) runner assignments.  Emissions are the runner uuids
sent Exit. -/
def removeSceneM (s : MasterState) (scene : Nat) : MasterState × List Nat :=
  ({ s with
     exited := if scene ∈ s.exited then s.exited else s.exited ++ [scene],
     perNode := s.perNode.filter (fun kv => !(decide (kv.1 = scene))),
     assigned := s.assigned.filter (fun kv => !(decide (kv.1.1 = scene))) },
   (alookup s.perNode scene).getD [])

/-- list_regions at a Master (main.rs): the regions of the runner
assignments recorded for the scene. -/
def listRegionsM (s : MasterState) (scene : Nat) : List SimulationBounds :=
  (s.assigned.filter (fun kv => decide (kv.1.1 = scene))).map
    (fun kv => kv.1.2)

/-- Iterated acks: j consecutive ack(scene) requests, emissions
concatenated. -/
def ackIter (s : MasterState) (scene : Nat) : Nat → MasterState × List (Nat × Nat)
  | 0 => (s, [])
  | j + 1 =>
    let prev := ackIter s scene j
    let nxt := ackM prev.1 scene
    (nxt.1, prev.2 ++ nxt.2)

theorem stepM_paused (s : MasterState) (scene k : Nat)
    (hrun : s.running = false) : stepM s scene k = (s, []) := by
  simp [stepM, hrun]

theorem stepM_run (s : MasterState) (scene k : Nat) (a : SceneAcks)
    (hrun : s.running = true) (ha : alookup s.scenesAcks scene = some a) :
    stepM s scene k =
      ({ s with scenesAcks := aupdate s.scenesAcks scene (fun ac =>
          { ac with pendingAcks := (s.numChildren : Int), stepId := k }) },
       List.replicate s.numChildren (scene, k)) := by
  simp [stepM, hrun, ha]

theorem ackM_unknown (s : MasterState) (scene : Nat)
    (ha : alookup s.scenesAcks scene = none) : ackM s scene = (s, []) := by
  simp [ackM, ha]

theorem ackM_counting (s : MasterState) (scene : Nat) (a : SceneAcks)
    (ha : alookup s.scenesAcks scene = some a) (hp : 1 < a.pendingAcks) :
    ackM s scene =
      ({ s with scenesAcks := aupdate s.scenesAcks scene (fun ac =>
          { ac with pendingAcks := ac.pendingAcks - 1 }) }, []) := by
  simp only [ackM, ha]
  rw [if_neg (by omega)]

theorem ackM_complete_within_limit (s : MasterState) (scene : Nat)
    (a : SceneAcks) (ha : alookup s.scenesAcks scene = some a)
    (hp : a.pendingAcks ≤ 1) (hlim : a.stepId + 1 ≤ a.stepLimit) :
    ackM s scene =
      stepM
        { s with
          scenesAcks :=
            aupdate (aupdate s.scenesAcks scene (fun ac =>
                { ac with pendingAcks := ac.pendingAcks - 1 })) scene
              (fun ac => { ac with stepId := a.stepId + 1 }) }
        scene (a.stepId + 1) := by
  simp only [ackM, ha]
  rw [if_pos hp, if_pos hlim]

theorem ackM_complete_over_limit (s : MasterState) (scene : Nat)
    (a : SceneAcks) (ha : alookup s.scenesAcks scene = some a)
    (hp : a.pendingAcks ≤ 1) (hlim : a.stepLimit < a.stepId + 1) :
    ackM s scene =
      ({ s with
         running := false,
         scenesAcks :=
           aupdate (aupdate s.scenesAcks scene (fun ac =>
               { ac with pendingAcks := ac.pendingAcks - 1 })) scene
             (fun ac => { ac with stepId := a.stepId + 1 }) }, []) := by
  simp only [ackM, ha]
  rw [if_pos hp, if_neg (by omega)]

theorem ackIter_counting (s : MasterState) (scene : Nat) (a : SceneAcks)
    (ha : alookup s.scenesAcks scene = some a) :
    ∀ j : Nat, (j : Int) ≤ a.pendingAcks - 1 →
      (ackIter s scene j).2 = [] ∧
      (ackIter s scene j).1.running = s.running ∧
      (ackIter s scene j).1.numChildren = s.numChildren ∧
      alookup (ackIter s scene j).1.scenesAcks scene =
        some { a with pendingAcks := a.pendingAcks - (j : Int) } := by
  intro j
  induction j with
  | zero =>
    intro _
    refine ⟨rfl, rfl, rfl, ?_⟩
    show alookup s.scenesAcks scene =
      some { a with pendingAcks := a.pendingAcks - ((0 : Nat) : Int) }
    rw [ha]
    have h0 : a.pendingAcks - ((0 : Nat) : Int) = a.pendingAcks := by
      push_cast
      ring
    rw [h0]
  | succ m ih =>
    intro hj
    have hm : (m : Int) ≤ a.pendingAcks - 1 := by
      push_cast at hj ⊢
      omega
    obtain ⟨he, hr, hn, hl⟩ := ih hm
    have hp2 : 1 <
        ({ a with pendingAcks := a.pendingAcks - (m : Int) } : SceneAcks).pendingAcks := by
      show 1 < a.pendingAcks - (m : Int)
      push_cast at hj
      omega
    have hack := ackM_counting (ackIter s scene m).1 scene _ hl hp2
    refine ⟨?_, ?_, ?_, ?_⟩
    · show (ackIter s scene m).2 ++ (ackM (ackIter s scene m).1 scene).2 = []
      rw [he, hack]
      rfl
    · show (ackM (ackIter s scene m).1 scene).1.running = s.running
      rw [hack]
      exact hr
    · show (ackM (ackIter s scene m).1 scene).1.numChildren = s.numChildren
      rw [hack]
      exact hn
    · show alookup (ackM (ackIter s scene m).1 scene).1.scenesAcks scene =
        some { a with pendingAcks := a.pendingAcks - ((m + 1 : Nat) : Int) }
      rw [hack]
      show alookup (aupdate (ackIter s scene m).1.scenesAcks scene (fun ac =>
        { ac with pendingAcks := ac.pendingAcks - 1 })) scene =
        some { a with pendingAcks := a.pendingAcks - ((m + 1 : Nat) : Int) }
      rw [alookup_aupdate_eq, hl]
      show some ({ a with pendingAcks := a.pendingAcks - (m : Int) - 1 } : SceneAcks) =
        some { a with pendingAcks := a.pendingAcks - ((m + 1 : Nat) : Int) }
      have hv : a.pendingAcks - (m : Int) - 1 =
          a.pendingAcks - ((m + 1 : Nat) : Int) := by
        push_cast
        ring
      rw [hv]

theorem ackM_final_within (t : MasterState) (scene : Nat) (a2 : SceneAcks)
    (ha : alookup t.scenesAcks scene = some a2) (hrun : t.running = true)
    (hp : a2.pendingAcks ≤ 1) (hlim : a2.stepId + 1 ≤ a2.stepLimit) :
    (ackM t scene).2 = List.replicate t.numChildren (scene, a2.stepId + 1) ∧
    (ackM t scene).1.running = true ∧
    (ackM t scene).1.numChildren = t.numChildren ∧
    alookup (ackM t scene).1.scenesAcks scene =
      some { pendingAcks := (t.numChildren : Int), stepId := a2.stepId + 1,
             stepLimit := a2.stepLimit } := by
  have hack := ackM_complete_within_limit t scene a2 ha hp hlim
  have hrun3 : ({ t with
      scenesAcks :=
        aupdate (aupdate t.scenesAcks scene (fun ac =>
            { ac with pendingAcks := ac.pendingAcks - 1 })) scene
          (fun ac => { ac with stepId := a2.stepId + 1 }) } : MasterState).running
      = true := hrun
  have hl3 : alookup ({ t with
      scenesAcks :=
        aupdate (aupdate t.scenesAcks scene (fun ac =>
            { ac with pendingAcks := ac.pendingAcks - 1 })) scene
          (fun ac => { ac with stepId := a2.stepId + 1 }) } :
        MasterState).scenesAcks scene =
      some { a2 with
             pendingAcks := a2.pendingAcks - 1,
             stepId := a2.stepId + 1 } := by
    show alookup (aupdate (aupdate t.scenesAcks scene (fun ac =>
        { ac with pendingAcks := ac.pendingAcks - 1 })) scene
      (fun ac => { ac with stepId := a2.stepId + 1 })) scene = _
    rw [alookup_aupdate_eq, alookup_aupdate_eq, ha]
    rfl
  have hstep := stepM_run _ scene (a2.stepId + 1) _ hrun3 hl3
  rw [hack, hstep]
  refine ⟨rfl, hrun, rfl, ?_⟩
  show alookup (aupdate (aupdate (aupdate t.scenesAcks scene (fun ac =>
        { ac with pendingAcks := ac.pendingAcks - 1 })) scene (fun ac =>
        { ac with stepId := a2.stepId + 1 })) scene (fun ac =>
        { ac with
          pendingAcks := (t.numChildren : Int),
          stepId := a2.stepId + 1 })) scene =
      some { pendingAcks := (t.numChildren : Int), stepId := a2.stepId + 1,
             stepLimit := a2.stepLimit }
  rw [alookup_aupdate_eq, alookup_aupdate_eq, alookup_aupdate_eq, ha]
  rfl

theorem ackM_final_over (t : MasterState) (scene : Nat) (a2 : SceneAcks)
    (ha : alookup t.scenesAcks scene = some a2)
    (hp : a2.pendingAcks ≤ 1) (hlim : a2.stepLimit < a2.stepId + 1) :
    (ackM t scene).2 = [] ∧
    (ackM t scene).1.running = false ∧
    (ackM t scene).1.numChildren = t.numChildren ∧
    alookup (ackM t scene).1.scenesAcks scene =
      some { pendingAcks := a2.pendingAcks - 1, stepId := a2.stepId + 1,
             stepLimit := a2.stepLimit } := by
  have hack := ackM_complete_over_limit t scene a2 ha hp hlim
  rw [hack]
  refine ⟨rfl, rfl, rfl, ?_⟩
  show alookup (aupdate (aupdate t.scenesAcks scene (fun ac =>
      { ac with pendingAcks := ac.pendingAcks - 1 })) scene
    (fun ac => { ac with stepId := a2.stepId + 1 })) scene = _
  rw [alookup_aupdate_eq, alookup_aupdate_eq, ha]
  rfl

/-- Claim C2: with children registered and the cluster running, a step
request for a known scene sets the scene's pending counter to the number
of children and fans the step out to every child; each subsequent ack
decrements the counter by one and emits nothing while acks are missing;
the ack that brings the counter to zero (the numChildren-th one) emits
step(scene, k+1) to every child when k is below the limit, and otherwise
clears the running flag (marking the scene idle). -/
theorem c2_step_ack_protocol (s : MasterState) (scene k : Nat) (a : SceneAcks)
    (hrun : s.running = true)
    (ha : alookup s.scenesAcks scene = some a)
    (hC : 1 ≤ s.numChildren) :
    (stepM s scene k).2 = List.replicate s.numChildren (scene, k) ∧
    alookup (stepM s scene k).1.scenesAcks scene =
      some { pendingAcks := (s.numChildren : Int), stepId := k,
             stepLimit := a.stepLimit } ∧
    (∀ j, j < s.numChildren →
      (ackIter (stepM s scene k).1 scene j).2 = [] ∧
      alookup (ackIter (stepM s scene k).1 scene j).1.scenesAcks scene =
        some { pendingAcks := (s.numChildren : Int) - (j : Int), stepId := k,
               stepLimit := a.stepLimit }) ∧
    (∀ j, j + 1 = s.numChildren → k + 1 ≤ a.stepLimit →
      (ackIter (stepM s scene k).1 scene (j + 1)).2 =
        List.replicate s.numChildren (scene, k + 1) ∧
      (ackIter (stepM s scene k).1 scene (j + 1)).1.running = true ∧
      alookup
        (ackIter (stepM s scene k).1 scene (j + 1)).1.scenesAcks scene =
        some { pendingAcks := (s.numChildren : Int), stepId := k + 1,
               stepLimit := a.stepLimit }) ∧
    (∀ j, j + 1 = s.numChildren → a.stepLimit < k + 1 →
      (ackIter (stepM s scene k).1 scene (j + 1)).2 = [] ∧
      (ackIter (stepM s scene k).1 scene (j + 1)).1.running = false ∧
      alookup
        (ackIter (stepM s scene k).1 scene (j + 1)).1.scenesAcks scene =
        some { pendingAcks := 0, stepId := k + 1,
               stepLimit := a.stepLimit }) := by
  have hstep := stepM_run s scene k a hrun ha
  rw [hstep]
  have hl1 : alookup
      ({ s with
         scenesAcks := aupdate s.scenesAcks scene (fun ac =>
           { ac with pendingAcks := (s.numChildren : Int), stepId := k }) } :
        MasterState).scenesAcks scene =
      some { pendingAcks := (s.numChildren : Int), stepId := k,
             stepLimit := a.stepLimit } := by
    show alookup (aupdate s.scenesAcks scene
      (fun ac => { ac with pendingAcks := (s.numChildren : Int), stepId := k }))
        scene = _
    rw [alookup_aupdate_eq, ha]
    rfl
  refine ⟨rfl, hl1, ?_, ?_, ?_⟩
  · intro j hj
    have hcount := ackIter_counting _ scene _ hl1 j
      (by show (j : Int) ≤ (s.numChildren : Int) - 1; omega)
    obtain ⟨h1, _, _, h4⟩ := hcount
    exact ⟨h1, h4⟩
  · intro j hj hlim
    have hprev := ackIter_counting _ scene _ hl1 j
      (by show (j : Int) ≤ (s.numChildren : Int) - 1; omega)
    obtain ⟨hpe, hpr, hpn, hpl⟩ := hprev
    have hrun2 : (ackIter ({ s with
        scenesAcks := aupdate s.scenesAcks scene (fun ac =>
          { ac with pendingAcks := (s.numChildren : Int), stepId := k }) } :
        MasterState) scene j).1.running = true := by
      rw [hpr]
      exact hrun
    have hfin := ackM_final_within _ scene _ hpl hrun2
      (by show (s.numChildren : Int) - (j : Int) ≤ 1; rw [← hj]; push_cast; omega)
      (by show k + 1 ≤ a.stepLimit; exact hlim)
    obtain ⟨hf1, hf2, hf3, hf4⟩ := hfin
    refine ⟨?_, hf2, ?_⟩
    · show (ackIter _ scene j).2 ++ (ackM (ackIter _ scene j).1 scene).2 =
        List.replicate s.numChildren (scene, k + 1)
      rw [hpe, List.nil_append, hf1, hpn]
    · show alookup (ackM (ackIter _ scene j).1 scene).1.scenesAcks scene = _
      rw [hf4, hpn]
  · intro j hj hlim
    have hprev := ackIter_counting _ scene _ hl1 j
      (by show (j : Int) ≤ (s.numChildren : Int) - 1; omega)
    obtain ⟨hpe, hpr, hpn, hpl⟩ := hprev
    have hfin := ackM_final_over _ scene _ hpl
      (by show (s.numChildren : Int) - (j : Int) ≤ 1; rw [← hj]; push_cast; omega)
      (by show a.stepLimit < k + 1; exact hlim)
    obtain ⟨hf1, hf2, hf3, hf4⟩ := hfin
    refine ⟨?_, hf2, ?_⟩
    · show (ackIter _ scene j).2 ++ (ackM (ackIter _ scene j).1 scene).2 = []
      rw [hpe, List.nil_append, hf1]
    · show alookup (ackM (ackIter _ scene j).1 scene).1.scenesAcks scene = _
      rw [hf4]
      have hv : (s.numChildren : Int) - (j : Int) - 1 = 0 := by
        rw [← hj]
        push_cast
        ring
      exact congrArg some (by rw [show ((s.numChildren : Int) - (j : Int) - 1) = 0 from hv])

/-- Concrete one-child Master state with one scene (limit 5), used by the
protocol witnesses. -/
def c2State : MasterState :=
  { running := true, numChildren := 1,
    scenesAcks := [(0, { pendingAcks := 0, stepId := 0, stepLimit := 5 })],
    scenesGeometries := [], staticBodies := [], exited := [], assigned := [],
    perNode := [] }

/-- Witness for c2_step_ack_protocol on the one-child Master state. -/
theorem c2_step_ack_protocol_witness :
    (stepM c2State 0 0).2 = List.replicate 1 (0, 0) ∧
    alookup (stepM c2State 0 0).1.scenesAcks 0 =
      some { pendingAcks := 1, stepId := 0, stepLimit := 5 } ∧
    (∀ j, j < 1 →
      (ackIter (stepM c2State 0 0).1 0 j).2 = [] ∧
      alookup (ackIter (stepM c2State 0 0).1 0 j).1.scenesAcks 0 =
        some { pendingAcks := 1 - (j : Int), stepId := 0, stepLimit := 5 }) ∧
    (∀ j, j + 1 = 1 → 0 + 1 ≤ 5 →
      (ackIter (stepM c2State 0 0).1 0 (j + 1)).2 =
        List.replicate 1 (0, 0 + 1) ∧
      (ackIter (stepM c2State 0 0).1 0 (j + 1)).1.running = true ∧
      alookup (ackIter (stepM c2State 0 0).1 0 (j + 1)).1.scenesAcks 0 =
        some { pendingAcks := 1, stepId := 0 + 1, stepLimit := 5 }) ∧
    (∀ j, j + 1 = 1 → 5 < 0 + 1 →
      (ackIter (stepM c2State 0 0).1 0 (j + 1)).2 = [] ∧
      (ackIter (stepM c2State 0 0).1 0 (j + 1)).1.running = false ∧
      alookup (ackIter (stepM c2State 0 0).1 0 (j + 1)).1.scenesAcks 0 =
        some { pendingAcks := 0, stepId := 0 + 1, stepLimit := 5 }) :=
  c2_step_ack_protocol c2State 0 0
    { pendingAcks := 0, stepId := 0, stepLimit := 5 } rfl (by decide) (by decide)

/-- Concrete Master state whose single scene has a pending counter that is
already 0 while stepping budget remains. -/
def c7State : MasterState :=
  { running := true, numChildren := 1,
    scenesAcks := [(0, { pendingAcks := 0, stepId := 5, stepLimit := 10 })],
    scenesGeometries := [], staticBodies := [], exited := [], assigned := [],
    perNode := [] }

/-- Counterexample to claim C7 as stated: an ack received by c7State when
no step is pending (the counter is already 0) does NOT leave the stepping
state unchanged and does emit a new step: the code treats value-before <= 1
as completion, increments the step id to 6, re-arms pending to the child
count, and emits step(0, 6). -/
theorem c7_ack_zero_pending_counterexample :
    (ackM c7State 0).2 = [(0, 6)] ∧
    alookup (ackM c7State 0).1.scenesAcks 0 =
      some { pendingAcks := 1, stepId := 6, stepLimit := 10 } ∧
    ¬ ((ackM c7State 0).1 = c7State ∧ (ackM c7State 0).2 = []) := by
  decide

/-- Claim C7 (amended): an ack for an unknown scene is ignored (state
unchanged, nothing emitted); an ack received when the pending counter is
already 0 is NOT ignored: the counter is decremented and the ack is
treated as completing the step, so with the cluster running and budget
remaining the step id is incremented and a new step is emitted to every
child, re-arming the pending counter. -/
theorem c7_protocol_violation (s : MasterState) (scene : Nat) :
    (alookup s.scenesAcks scene = none → ackM s scene = (s, [])) ∧
    (∀ a : SceneAcks, alookup s.scenesAcks scene = some a →
      a.pendingAcks = 0 → s.running = true → a.stepId + 1 ≤ a.stepLimit →
      (ackM s scene).2 = List.replicate s.numChildren (scene, a.stepId + 1) ∧
      alookup (ackM s scene).1.scenesAcks scene =
        some { pendingAcks := (s.numChildren : Int), stepId := a.stepId + 1,
               stepLimit := a.stepLimit }) := by
  constructor
  · intro hnone
    exact ackM_unknown s scene hnone
  · intro a ha hp hrun hlim
    have hfin := ackM_final_within s scene a ha hrun (by omega) hlim
    exact ⟨hfin.1, hfin.2.2.2⟩

/-- Witness for c7_protocol_violation at the concrete zero-pending
state: the ack is treated as completing step 5 and re-emits step 6. -/
theorem c7_protocol_violation_witness :
    (ackM c7State 0).2 = List.replicate c7State.numChildren (0, 5 + 1) ∧
    alookup (ackM c7State 0).1.scenesAcks 0 =
      some { pendingAcks := (c7State.numChildren : Int), stepId := 5 + 1,
             stepLimit := 10 } :=
  (c7_protocol_violation c7State 0).2
    { pendingAcks := 0, stepId := 5, stepLimit := 10 }
    (by decide) rfl rfl (by decide)

/-- Claim C10: the running flag is one cluster-global boolean shared by
all scenes: start_stop(S, false) clears it whatever the scene, and any
step request for ANY scene is then silently dropped; a step for any scene
is dropped whenever the flag is false; and the ack that exhausts one
scene's step budget clears the flag, after which stepping of every other
scene is suspended too. -/
theorem c10_global_running_flag :
    (∀ (s : MasterState) (scene1 scene2 k : Nat),
      (startStopM s scene1 false).1.running = false ∧
      stepM (startStopM s scene1 false).1 scene2 k =
        ((startStopM s scene1 false).1, [])) ∧
    (∀ (s : MasterState) (scene k : Nat), s.running = false →
      stepM s scene k = (s, [])) ∧
    (∀ (s : MasterState) (scene : Nat) (a : SceneAcks),
      alookup s.scenesAcks scene = some a →
      a.pendingAcks ≤ 1 → a.stepLimit < a.stepId + 1 →
      (ackM s scene).1.running = false ∧
      ∀ (scene2 k : Nat),
        stepM (ackM s scene).1 scene2 k = ((ackM s scene).1, [])) := by
  refine ⟨?_, ?_, ?_⟩
  · intro s scene1 scene2 k
    have h1 : startStopM s scene1 false = ({ s with running := false }, []) :=
      rfl
    rw [h1]
    exact ⟨rfl, stepM_paused _ scene2 k rfl⟩
  · intro s scene k hrun
    exact stepM_paused s scene k hrun
  · intro s scene a ha hp hlim
    have hfin := ackM_final_over s scene a ha hp hlim
    refine ⟨hfin.2.1, ?_⟩
    intro scene2 k
    exact stepM_paused _ scene2 k hfin.2.1

/-- Concrete Master state whose single scene has exhausted its step
budget (step id 10 at limit 10) with one ack pending. -/
def c10State : MasterState :=
  { running := true, numChildren := 1,
    scenesAcks := [(0, { pendingAcks := 1, stepId := 10, stepLimit := 10 })],
    scenesGeometries := [], staticBodies := [], exited := [], assigned := [],
    perNode := [] }

/-- Witness for c10_global_running_flag: pausing via start_stop blocks a
step of another scene, and the budget-exhausting ack of scene 0 blocks
stepping of scene 1. -/
theorem c10_global_running_flag_witness :
    ((startStopM c2State 0 false).1.running = false ∧
      stepM (startStopM c2State 0 false).1 1 3 =
        ((startStopM c2State 0 false).1, [])) ∧
    ((ackM c10State 0).1.running = false ∧
      ∀ (scene2 k : Nat),
        stepM (ackM c10State 0).1 scene2 k = ((ackM c10State 0).1, [])) :=
  ⟨c10_global_running_flag.1 c2State 0 1 3,
   c10_global_running_flag.2.2 c10State 0
     { pendingAcks := 1, stepId := 10, stepLimit := 10 }
     (by decide) (by decide) (by decide)⟩

/-- Claim C6: create_scene followed by remove_scene leaves no region
entries (list_regions is empty), no (scene, region) runner assignments,
and no static bodies for the scene; and remove_scene is idempotent on the
Master state (a second call changes nothing and messages no runner). -/
theorem c6_create_remove_scene (s : MasterState) (scene : Nat)
    (bounds : DomainAabb) (uuids : List Nat) :
    listRegionsM (removeSceneM (createSceneM s scene bounds uuids) scene).1
      scene = [] ∧
    (∀ (r : SimulationBounds) (u : Nat),
      ((scene, r), u) ∉
        (removeSceneM (createSceneM s scene bounds uuids) scene).1.assigned) ∧
    alookup
      (removeSceneM (createSceneM s scene bounds uuids) scene).1.staticBodies
      scene = some [] ∧
    (∀ t : MasterState,
      removeSceneM (removeSceneM t scene).1 scene =
        ((removeSceneM t scene).1, [])) := by
  refine ⟨?_, ?_, ?_, ?_⟩
  · show ((s.assigned.filter (fun kv => !(decide (kv.1.1 = scene)))).filter
      (fun kv => decide (kv.1.1 = scene))).map (fun kv => kv.1.2) = []
    rw [filter_not_then_filter s.assigned (fun kv => decide (kv.1.1 = scene))]
    rfl
  · intro r u hmem
    have hpred := (List.mem_filter.1 hmem).2
    simp at hpred
  · show alookup (ainsert s.staticBodies scene []) scene = some []
    exact alookup_ainsert_eq s.staticBodies scene []
  · intro t
    obtain ⟨run, nc, sa, sg, sb, ex, asg, pn⟩ := t
    have hex : scene ∈ (if scene ∈ ex then ex else ex ++ [scene]) := by
      by_cases h : scene ∈ ex
      · rw [if_pos h]
        exact h
      · rw [if_neg h]
        exact List.mem_append.2 (Or.inr (List.mem_singleton.2 rfl))
    simp only [removeSceneM, Prod.mk.injEq, MasterState.mk.injEq]
    refine ⟨⟨trivial, trivial, trivial, trivial, trivial, ?_, ?_, ?_⟩, ?_⟩
    · rw [if_pos hex]
    · exact filter_self_idem asg _
    · exact filter_self_idem pn _
    · rw [alookup_filter_self pn scene]
      rfl

/-- Concrete cubic scene domain used by the scene-lifecycle witnesses
and the subdivision counterexample. -/
def c8Domain : DomainAabb :=
  { mins0 := 0, mins1 := 0, mins2 := 0, maxs0 := 16, maxs1 := 16,
    maxs2 := 16 }

/-- Witness for c6_create_remove_scene at a concrete state. -/
theorem c6_create_remove_scene_witness :
    listRegionsM (removeSceneM (createSceneM c2State 3 c8Domain
      [9]) 3).1 3 = [] ∧
    (∀ (r : SimulationBounds) (u : Nat),
      ((3, r), u) ∉
        (removeSceneM (createSceneM c2State 3 c8Domain [9])
          3).1.assigned) ∧
    alookup (removeSceneM (createSceneM c2State 3 c8Domain [9])
      3).1.staticBodies 3 = some [] ∧
    (∀ t : MasterState,
      removeSceneM (removeSceneM t 3).1 3 = ((removeSceneM t 3).1, [])) :=
  c6_create_remove_scene c2State 3 c8Domain [9]

/-- Claim C8 (amended): create_scene stores, as the scene's children
bounds, the result of subdivide_domain on the scene bounds with C = the
number of registered children; subdivide_domain produces exactly C
sub-AABBs when C >= 1, by repeatedly median-splitting the front of the
queue on the widest horizontal axis (x on ties); but with C = 0 it
produces one AABB (the whole domain), not zero.  create_scene succeeds
with zero children either way. -/
theorem c8_scene_subdivision (s : MasterState) (scene : Nat)
    (bounds : DomainAabb) (uuids : List Nat) :
    alookup (createSceneM s scene bounds uuids).scenesGeometries scene =
      some (subdivideDomain bounds s.numChildren) ∧
    (∀ (d : DomainAabb) (n : Nat), 1 ≤ n →
      (subdivideDomain d n).length = n) ∧
    (∀ d : DomainAabb, subdivideDomain d 0 = [d]) ∧
    (∀ a : DomainAabb, a.maxs2 - a.mins2 ≤ a.maxs0 - a.mins0 →
      splitAabb a = ({ a with maxs0 := (a.mins0 + a.maxs0) / 2 },
                     { a with mins0 := (a.mins0 + a.maxs0) / 2 })) ∧
    (∀ a : DomainAabb, a.maxs0 - a.mins0 < a.maxs2 - a.mins2 →
      splitAabb a = ({ a with maxs2 := (a.mins2 + a.maxs2) / 2 },
                     { a with mins2 := (a.mins2 + a.maxs2) / 2 })) := by
  refine ⟨?_, ?_, ?_, ?_, ?_⟩
  · show alookup (ainsert s.scenesGeometries scene
      (subdivideDomain bounds s.numChildren)) scene = _
    exact alookup_ainsert_eq _ _ _
  · intro d n hn
    rcases n with _ | m
    · omega
    · show (subdivideLoop m [d]).length = m + 1
      rw [subdivideLoop_length m [d] (by simp)]
      simp only [List.length_singleton]
      omega
  · intro d
    rfl
  · intro a h
    unfold splitAabb
    rw [if_neg (not_lt.2 h)]
  · intro a h
    unfold splitAabb
    rw [if_pos h]

/-- Counterexample to claim C8 as stated: with zero registered children,
subdivide_domain yields ONE sub-AABB (the whole domain), not zero
(the loop for 1..0 runs no iteration and the seeded queue is returned). -/
theorem c8_zero_children_counterexample :
    (subdivideDomain c8Domain 0).length = 1 ∧
    (subdivideDomain c8Domain 0).length ≠ 0 := by
  decide

/-- Witness for c8_scene_subdivision at a concrete domain: the stored
geometry and a four-way subdivision of length four. -/
theorem c8_scene_subdivision_witness :
    alookup (createSceneM c2State 7 c8Domain [9]).scenesGeometries 7 =
      some (subdivideDomain c8Domain c2State.numChildren) ∧
    (subdivideDomain c8Domain 4).length = 4 :=
  ⟨(c8_scene_subdivision c2State 7 c8Domain [9]).1,
   (c8_scene_subdivision c2State 7 c8Domain [9]).2.1 c8Domain 4 (by decide)⟩
